import Mathlib

/-
Verification of the amper policy-composition core
(`amper/amper_container.go`): the container / attachment lifecycle and the
`Policy()` composer, shallowly embedded in Lean.  Go maps are modelled as
association lists updated in insertion order (per-account results of the
composer are independent of map iteration order, and the one place where
iteration order could leak into output is explicitly sorted by the code).
External collaborators (policy templates, the document model constants and
the compression step) are modelled from the spec as oracle functions and
plain data.
-/

set_option autoImplicit false

namespace Amper

/-- Modelled from the spec: a policy statement of the external policy
document model has an identifier, an effect, positive or negated action
lists, and a resource list. -/
structure IAMPolicyStatement where
  Sid : String := ""
  Effect : String := ""
  Actions : List String := []
  NotActions : List String := []
  Resources : List String := []
deriving DecidableEq, Repr

/-- Modelled from the spec: a policy document is a declared version string
plus an ordered list of statements. -/
structure IAMPolicyDoc where
  Version : String := ""
  Statements : List IAMPolicyStatement := []
deriving DecidableEq, Repr

/-- Modelled from the spec: the single supported policy-document version
constant, compared by exact equality against any non-empty version field.
The concrete value is irrelevant to the composer; only equality with it is
observed. -/
def IAMPolicyVersion : String := "2012-10-17"

/-- Modelled from the spec: the pair of documents stored per service role. -/
structure ServiceRolePolicy where
  Policy : IAMPolicyDoc := {}
  AssumeRolePolicy : IAMPolicyDoc := {}
deriving DecidableEq, Repr

/-- Modelled from the spec: an account, identified by name. -/
structure Account where
  Name : String
deriving DecidableEq, Repr

/-- Modelled from the spec: the optional service-role descriptor of a
template, identified by name. -/
structure ServiceRole where
  Name : String
deriving DecidableEq, Repr

/-- The failure conditions of the core, one constructor per error kind of
the Go code, carrying the data the corresponding message interpolates. -/
inductive AmperError where
  | duplicateTemplate (key : String)
  | invalidState (key : String)
  | unknownTemplate (key containerID : String)
  | unknownAccount (name containerID : String)
  | missingVariable (name containerID : String)
  | renderFailure (msg : String)
  | unsupportedVersion (version : String)
  | compressFailure (msg : String)
deriving DecidableEq, Repr

/-- Variable bindings supplied at attach time (a Go string map). -/
abbrev VarMap := List (String × String)

/-- Lookup in an association list modelling a Go map (first match wins). -/
def lookupA {β : Type} : List (String × β) → String → Option β
  | [], _ => none
  | (k', v) :: rest, k => if k' = k then some v else lookupA rest k

/-- Update-or-insert in an association list modelling a Go map: the first
entry with the key is rewritten in place, a fresh key is appended. -/
def updMap {β : Type} : List (String × β) → String → (Option β → β) → List (String × β)
  | [], k, f => [(k, f none)]
  | (k', v) :: rest, k, f =>
    if k' = k then (k', f (some v)) :: rest else (k', v) :: updMap rest k f

/-- Go `m[k] = append(m[k], x)` on a map of slices. -/
def pushAt {β : Type} (m : List (String × List β)) (k : String) (x : β) :
    List (String × List β) :=
  updMap m k (fun o => o.getD [] ++ [x])

/-- Go `m[k] = v`. -/
def setAt {β : Type} (m : List (String × β)) (k : String) (v : β) : List (String × β) :=
  updMap m k (fun _ => v)

/-- Go `if m[k] == nil { m[k] = make(...) }`: ensure the key exists, with an
empty value when absent, the current value otherwise. -/
def ensureAt {β : Type} (m : List (String × List β)) (k : String) : List (String × List β) :=
  updMap m k (fun o => o.getD [])

/-- Go `for _, s := range xs { set[s] = true }` on a set modelled as a
duplicate-free list. -/
def insertSet (s : List String) (xs : List String) : List String :=
  xs.foldl (fun acc x => if x ∈ acc then acc else acc ++ [x]) s

/-- Modelled from the spec: a policy template as the composer sees it.  The
render operations are external collaborators; the container argument the Go
code passes to them is the fixed enclosing container and is omitted here.
The registry and container back-pointers used as ownership markers are
modelled as presence flags. -/
structure PolicyTemplate where
  Key : String
  Vars : List String := []
  Scope : List String := []
  ServiceRole : Option ServiceRole := none
  renderTemplate : Account → VarMap → Except AmperError (Option IAMPolicyDoc)
  renderServiceRole : Account → VarMap → Except AmperError IAMPolicyDoc
  renderServiceAssumeRole : Account → VarMap → Except AmperError IAMPolicyDoc
  amper : Bool := false
  container : Bool := false

/-- The binding of one template to one account with concrete variables. -/
structure Attachment where
  pt : PolicyTemplate
  account : Account
  vars : VarMap

/-- The policy aggregate assembled by the composer: three parallel maps
keyed by account name.  The back-pointer to the kernel carried by the Go
struct is omitted (it is only used by the external compression step). -/
structure Policy where
  AccountPolicies : List (String × List IAMPolicyDoc) := []
  AccountRolePolicies : List (String × List IAMPolicyDoc) := []
  ServiceRolePolicies : List (String × List (String × ServiceRolePolicy)) := []
deriving DecidableEq, Repr

/-- Modelled from the spec: the registry (kernel) holds the known templates
and accounts; `compress` is the external normalization / validation step on
the final aggregate, returning success or a failure. -/
structure Kernel where
  policyTemplates : List (String × PolicyTemplate) := []
  accounts : List (String × Account) := []
  compress : Policy → Option AmperError := fun _ => none

/-- The unit of composition: an identifier and an append-only attachment
list against a fixed kernel. -/
structure Container where
  amper : Kernel
  ID : String
  attachments : List Attachment := []

/-- Result of `Container.AddPolicyTemplate`, carrying the post-state. -/
structure AddTemplateResult where
  err : Option AmperError
  container : Container

/-- `Container.AddPolicyTemplate` from the source: reject a duplicate key,
reject a template already carrying ownership markers, otherwise stamp the
template with its owners and insert it into the registry map. -/
def Container.AddPolicyTemplate (c : Container) (pt : PolicyTemplate) : AddTemplateResult :=
  if (lookupA c.amper.policyTemplates pt.Key).isSome then
    ⟨some (.duplicateTemplate pt.Key), c⟩
  else if pt.container || pt.amper then
    ⟨some (.invalidState pt.Key), c⟩
  else
    ⟨none,
      { c with
        amper :=
          { c.amper with
            policyTemplates :=
              c.amper.policyTemplates ++
                [(pt.Key, { pt with amper := true, container := true })] } }⟩

/-- Result of `Container.AddAttachment`, carrying the post-state. -/
structure AddAttachmentResult where
  attachment : Option Attachment
  err : Option AmperError
  container : Container

/-- `Container.AddAttachment` from the source: look up the template and the
account, check that every required variable of the template is bound
(reporting the first one that is not), then append one attachment. -/
def Container.AddAttachment (c : Container) (policyTemplateID accountName : String)
    (vars : VarMap) : AddAttachmentResult :=
  match lookupA c.amper.policyTemplates policyTemplateID with
  | none => ⟨none, some (.unknownTemplate policyTemplateID c.ID), c⟩
  | some pt =>
    match lookupA c.amper.accounts accountName with
    | none => ⟨none, some (.unknownAccount accountName c.ID), c⟩
    | some account =>
      match pt.Vars.find? (fun v => (lookupA vars v).isNone) with
      | some v => ⟨none, some (.missingVariable v c.ID), c⟩
      | none =>
        let attachment : Attachment := ⟨pt, account, vars⟩
        ⟨some attachment, none, { c with attachments := c.attachments ++ [attachment] }⟩

/-- The mutable state of the attachment pass inside `Container.Policy`. -/
structure PolicyState where
  accountPolicies : List (String × List IAMPolicyDoc) := []
  serviceRolePolicies : List (String × List (String × ServiceRolePolicy)) := []
  scopeMap : List (String × List String) := []
  missing : List Attachment := []

/-- One iteration of the attachment loop of `Container.Policy`: ensure the
service-role bucket, render, ensure the scope bucket, handle the absent
document case, check the version, append the document, union the scope, and
handle the service role. -/
def processAttachment (st : PolicyState) (a : Attachment) : Except AmperError PolicyState :=
  let srp0 := ensureAt st.serviceRolePolicies a.account.Name
  match a.pt.renderTemplate a.account a.vars with
  | .error e => .error e
  | .ok pd0 =>
    let scope0 := ensureAt st.scopeMap a.account.Name
    match pd0 with
    | none =>
      .ok { st with
        serviceRolePolicies := srp0
        scopeMap := scope0
        accountPolicies := pushAt st.accountPolicies a.account.Name {}
        missing := st.missing ++ [a] }
    | some pd =>
      if pd.Version ≠ "" ∧ pd.Version ≠ IAMPolicyVersion then
        .error (.unsupportedVersion pd.Version)
      else
        let ap1 := pushAt st.accountPolicies a.account.Name pd
        let scope1 := updMap scope0 a.account.Name (fun o => insertSet (o.getD []) a.pt.Scope)
        match a.pt.ServiceRole with
        | none =>
          .ok { st with accountPolicies := ap1, scopeMap := scope1, serviceRolePolicies := srp0 }
        | some sr =>
          match a.pt.renderServiceRole a.account a.vars with
          | .error e => .error e
          | .ok rolePolicy =>
            match a.pt.renderServiceAssumeRole a.account a.vars with
            | .error e => .error e
            | .ok assumeRolePolicy =>
              .ok { st with
                accountPolicies := ap1
                scopeMap := scope1
                serviceRolePolicies :=
                  updMap srp0 a.account.Name
                    (fun o => setAt (o.getD []) sr.Name ⟨rolePolicy, assumeRolePolicy⟩) }

/-- The fold step of the attachment pass: a previous failure short-circuits
(the Go loop has already returned). -/
def passStep (acc : Except AmperError PolicyState) (a : Attachment) :
    Except AmperError PolicyState :=
  acc.bind (fun st => processAttachment st a)

/-- The whole attachment pass of `Container.Policy`, in container insertion
order. -/
def Container.passState (c : Container) : Except AmperError PolicyState :=
  c.attachments.foldl passStep (.ok {})

/-- The synthesized allow-everything statement. -/
def allowAll : IAMPolicyStatement :=
  { Sid := "AllowAll", Effect := "Allow", Actions := ["*"], Resources := ["*"] }

/-- The synthesized deny-everything statement, for accounts whose scope set
is empty. -/
def denyAllStatement : IAMPolicyStatement :=
  { Sid := "DenyAll", Effect := "Deny", Actions := ["*"], Resources := ["*"] }

/-- The synthesized deny-unless-in-scope statement, for accounts whose
scope set is non-empty: effect deny, resource wildcard, negated actions. -/
def denyUnknownServices (scopes : List String) : IAMPolicyStatement :=
  { Sid := "DenyUnknownServices", Effect := "Deny", NotActions := scopes, Resources := ["*"] }

/-- Lexicographic sort of the collected scope identifiers (the Go code
sorts the slice of map keys with the standard string order). -/
def sortStrings (l : List String) : List String :=
  List.insertionSort (fun a b => a ≤ b) l

/-- The document wrapping the synthesized allow-everything statement. -/
def allowAllDoc : IAMPolicyDoc := { Statements := [allowAll] }

/-- The document wrapping the synthesized deny statement for a given scope
set: deny-everything when the set is empty, deny-unless-in-scope with the
sorted members otherwise. -/
def denyDoc (po : List String) : IAMPolicyDoc :=
  if po.isEmpty then { Statements := [denyAllStatement] }
  else { Statements := [denyUnknownServices (sortStrings po)] }

/-- One iteration of the per-account synthesis loop of `Container.Policy`:
append the deny document, snapshot the list into the role-policies map, and
only then conditionally append the allow-everything document. -/
def finalizeStep (acc : List (String × List IAMPolicyDoc) × List (String × List IAMPolicyDoc))
    (e : String × List String) :
    List (String × List IAMPolicyDoc) × List (String × List IAMPolicyDoc) :=
  let ap1 := pushAt acc.1 e.1 (denyDoc e.2)
  let arp1 := setAt acc.2 e.1 ((lookupA ap1 e.1).getD [])
  (if e.2.isEmpty then ap1 else pushAt ap1 e.1 allowAllDoc, arp1)

/-- The per-account synthesis loop over the scope map, starting from the
account-policies map of the pass and an empty role-policies map. -/
def finalize (ap : List (String × List IAMPolicyDoc)) (sm : List (String × List String)) :
    List (String × List IAMPolicyDoc) × List (String × List IAMPolicyDoc) :=
  sm.foldl finalizeStep (ap, [])

/-- The triple returned by `Container.Policy`. -/
structure PolicyResult where
  policy : Option Policy
  err : Option AmperError
  missing : List Attachment

/-- `Container.Policy` from the source: run the attachment pass (a failure
there is returned with a nil missing list), synthesize the per-account deny
and allow documents, assemble the aggregate and compress it (a compression
failure is returned with the accumulated missing list and no aggregate). -/
def Container.Policy (c : Container) : PolicyResult :=
  match c.passState with
  | .error e => ⟨none, some e, []⟩
  | .ok st =>
    let fin := finalize st.accountPolicies st.scopeMap
    let p : Amper.Policy := ⟨fin.1, fin.2, st.serviceRolePolicies⟩
    match c.amper.compress p with
    | some e => ⟨none, some e, st.missing⟩
    | none => ⟨some p, none, st.missing⟩

/- Concrete fixtures exercised by the witnesses of the claim theorems. -/

/-- An empty policy document (the placeholder the composer emits). -/
def docEmpty : IAMPolicyDoc := {}

/-- Fixture account A. -/
def acctA : Account := ⟨"A"⟩

/-- Fixture account B. -/
def acctB : Account := ⟨"B"⟩

/-- Fixture template with a non-empty scope rendering an empty document. -/
def tplScoped : PolicyTemplate :=
  { Key := "t1", Scope := ["s3:*"]
    renderTemplate := fun _ _ => .ok (some {})
    renderServiceRole := fun _ _ => .ok {}
    renderServiceAssumeRole := fun _ _ => .ok {} }

/-- Fixture template with an empty scope. -/
def tplNoScope : PolicyTemplate :=
  { Key := "t2"
    renderTemplate := fun _ _ => .ok (some {})
    renderServiceRole := fun _ _ => .ok {}
    renderServiceAssumeRole := fun _ _ => .ok {} }

/-- Fixture template whose render yields no document. -/
def tplAbsent : PolicyTemplate :=
  { Key := "tm"
    renderTemplate := fun _ _ => .ok none
    renderServiceRole := fun _ _ => .ok {}
    renderServiceAssumeRole := fun _ _ => .ok {} }

/-- Fixture template rendering a document with an unsupported version. -/
def tplBadVersion : PolicyTemplate :=
  { Key := "tv"
    renderTemplate := fun _ _ => .ok (some { Version := "v9" })
    renderServiceRole := fun _ _ => .ok {}
    renderServiceAssumeRole := fun _ _ => .ok {} }

/-- Fixture template whose render fails. -/
def tplRenderErr : PolicyTemplate :=
  { Key := "te"
    renderTemplate := fun _ _ => .error (.renderFailure "boom")
    renderServiceRole := fun _ _ => .ok {}
    renderServiceAssumeRole := fun _ _ => .ok {} }

/-- Fixture service-role policy document. -/
def rolePolicyDoc : IAMPolicyDoc := { Statements := [denyAllStatement] }

/-- Fixture assume-role policy document. -/
def assumeRoleDoc : IAMPolicyDoc := { Statements := [allowAll] }

/-- Fixture template declaring a service role with both renders succeeding. -/
def tplRole : PolicyTemplate :=
  { Key := "tr", Scope := ["iam:*"], ServiceRole := some ⟨"sr1"⟩
    renderTemplate := fun _ _ => .ok (some {})
    renderServiceRole := fun _ _ => .ok rolePolicyDoc
    renderServiceAssumeRole := fun _ _ => .ok assumeRoleDoc }

/-- Fixture template whose service-role render fails. -/
def tplRoleBad : PolicyTemplate :=
  { Key := "trb", ServiceRole := some ⟨"sr1"⟩
    renderTemplate := fun _ _ => .ok (some {})
    renderServiceRole := fun _ _ => .error (.renderFailure "role")
    renderServiceAssumeRole := fun _ _ => .ok {} }

/-- Fixture template requiring two variables. -/
def tplVarsReq : PolicyTemplate :=
  { Key := "tvars", Vars := ["Bucket", "Region"]
    renderTemplate := fun _ _ => .ok (some {})
    renderServiceRole := fun _ _ => .ok {}
    renderServiceAssumeRole := fun _ _ => .ok {} }

/-- Fixture template not yet registered anywhere. -/
def tplFresh : PolicyTemplate :=
  { Key := "f1"
    renderTemplate := fun _ _ => .ok none
    renderServiceRole := fun _ _ => .ok {}
    renderServiceAssumeRole := fun _ _ => .ok {} }

/-- Fixture attachments. -/
def attScoped : Attachment := ⟨tplScoped, acctA, []⟩

def attNoScope : Attachment := ⟨tplNoScope, acctB, []⟩

def attAbsent : Attachment := ⟨tplAbsent, acctB, []⟩

def attBadVersion : Attachment := ⟨tplBadVersion, acctA, []⟩

def attRole : Attachment := ⟨tplRole, acctA, []⟩

def attRoleBad : Attachment := ⟨tplRoleBad, acctA, []⟩

def attRenderErr : Attachment := ⟨tplRenderErr, acctA, []⟩

/-- Fixture kernel with one template and one account. -/
def kernelEx : Kernel := { policyTemplates := [("t1", tplScoped)], accounts := [("A", acctA)] }

/-- Fixture kernel for registration claims. -/
def kernelReg : Kernel := {}

/-- Fixture kernel for attachment claims. -/
def kernelVars : Kernel :=
  { policyTemplates := [("tvars", tplVarsReq)], accounts := [("A", acctA)] }

/-- Fixture kernel whose compression step always fails. -/
def kernelBadCompress : Kernel := { compress := fun _ => some (.compressFailure "limit") }

def cScoped : Container := { amper := kernelEx, ID := "c1", attachments := [attScoped] }

def cNoScope : Container := { amper := kernelEx, ID := "c2", attachments := [attNoScope] }

def cBadVersion : Container := { amper := kernelEx, ID := "c3", attachments := [attBadVersion] }

def cRole : Container := { amper := kernelEx, ID := "c4", attachments := [attRole] }

def cRoleBad : Container := { amper := kernelEx, ID := "c5", attachments := [attRoleBad] }

def cRenderErr : Container :=
  { amper := kernelEx, ID := "c6", attachments := [attAbsent, attRenderErr] }

def cCompressErr : Container :=
  { amper := kernelBadCompress, ID := "c7", attachments := [attAbsent] }

def cReg : Container := { amper := kernelReg, ID := "r1" }

def cVars : Container := { amper := kernelVars, ID := "v1" }

def cEmptyAtt : Container := { amper := kernelEx, ID := "e1" }

/-- The pass state reached by the scoped fixture container. -/
def stScoped : PolicyState :=
  { accountPolicies := [("A", [docEmpty])]
    serviceRolePolicies := [("A", [])]
    scopeMap := [("A", ["s3:*"])] }

/-- The aggregate produced by the scoped fixture container. -/
def pScoped : Policy :=
  ⟨[("A", [docEmpty, denyDoc ["s3:*"], allowAllDoc])],
   [("A", [docEmpty, denyDoc ["s3:*"]])],
   [("A", [])]⟩

/-- The pass state reached by the scope-less fixture container. -/
def stNoScope : PolicyState :=
  { accountPolicies := [("B", [docEmpty])]
    serviceRolePolicies := [("B", [])]
    scopeMap := [("B", [])] }

/-- The aggregate produced by the scope-less fixture container. -/
def pNoScope : Policy :=
  ⟨[("B", [docEmpty, denyDoc []])],
   [("B", [docEmpty, denyDoc []])],
   [("B", [])]⟩

/-- The pass state reached after the absent-render fixture attachment. -/
def stAbsent : PolicyState :=
  { accountPolicies := [("B", [docEmpty])]
    serviceRolePolicies := [("B", [])]
    scopeMap := [("B", [])]
    missing := [attAbsent] }

/- Lemmas about the association-list model of Go maps. -/

theorem lookupA_updMap_self {β : Type} (m : List (String × β)) (k : String) (f : Option β → β) :
    lookupA (updMap m k f) k = some (f (lookupA m k)) := by
  induction m with
  | nil => simp [updMap, lookupA]
  | cons e m ih =>
    obtain ⟨k', v⟩ := e
    by_cases h : k' = k
    · subst h
      simp [updMap, lookupA]
    · simp [updMap, lookupA, h, ih]

theorem lookupA_updMap_ne {β : Type} (m : List (String × β)) (k' k : String)
    (f : Option β → β) (h : k' ≠ k) :
    lookupA (updMap m k' f) k = lookupA m k := by
  induction m with
  | nil => simp [updMap, lookupA, h]
  | cons e m ih =>
    obtain ⟨a, v⟩ := e
    by_cases ha : a = k'
    · subst ha
      simp [updMap, lookupA, h, ih]
    · simp only [updMap, if_neg ha, lookupA]
      by_cases hk : a = k
      · simp [hk]
      · simp [hk, ih]

theorem lookupA_pushAt_self {β : Type} (m : List (String × List β)) (k : String) (x : β) :
    lookupA (pushAt m k x) k = some ((lookupA m k).getD [] ++ [x]) := by
  simp [pushAt, lookupA_updMap_self]

theorem lookupA_pushAt_ne {β : Type} (m : List (String × List β)) (k' k : String) (x : β)
    (h : k' ≠ k) : lookupA (pushAt m k' x) k = lookupA m k := by
  simp [pushAt, lookupA_updMap_ne _ _ _ _ h]

theorem lookupA_setAt_self {β : Type} (m : List (String × β)) (k : String) (v : β) :
    lookupA (setAt m k v) k = some v := by
  simp [setAt, lookupA_updMap_self]

theorem lookupA_setAt_ne {β : Type} (m : List (String × β)) (k' k : String) (v : β)
    (h : k' ≠ k) : lookupA (setAt m k' v) k = lookupA m k := by
  simp [setAt, lookupA_updMap_ne _ _ _ _ h]

theorem lookupA_ensureAt_self {β : Type} (m : List (String × List β)) (k : String) :
    lookupA (ensureAt m k) k = some ((lookupA m k).getD []) := by
  simp [ensureAt, lookupA_updMap_self]

theorem lookupA_ensureAt_ne {β : Type} (m : List (String × List β)) (k' k : String)
    (h : k' ≠ k) : lookupA (ensureAt m k') k = lookupA m k := by
  simp [ensureAt, lookupA_updMap_ne _ _ _ _ h]

theorem mem_keys_updMap {β : Type} (m : List (String × β)) (k : String) (f : Option β → β)
    (x : String) (hx : x ∈ (updMap m k f).map Prod.fst) :
    x ∈ m.map Prod.fst ∨ x = k := by
  induction m with
  | nil =>
    simp [updMap] at hx
    exact Or.inr hx
  | cons e m ih =>
    obtain ⟨a, v⟩ := e
    by_cases ha : a = k
    · subst ha
      rw [updMap, if_pos rfl] at hx
      simp only [List.map_cons, List.mem_cons] at hx ⊢
      rcases hx with hx | hx
      · exact Or.inl (Or.inl hx)
      · exact Or.inl (Or.inr hx)
    · rw [updMap, if_neg ha] at hx
      simp only [List.map_cons, List.mem_cons] at hx ⊢
      rcases hx with hx | hx
      · exact Or.inl (Or.inl hx)
      · rcases ih hx with h | h
        · exact Or.inl (Or.inr h)
        · exact Or.inr h

theorem nodup_keys_updMap {β : Type} (m : List (String × β)) (k : String) (f : Option β → β)
    (h : (m.map Prod.fst).Nodup) : ((updMap m k f).map Prod.fst).Nodup := by
  induction m with
  | nil => simp [updMap]
  | cons e m ih =>
    obtain ⟨a, v⟩ := e
    simp only [List.map_cons, List.nodup_cons] at h
    by_cases ha : a = k
    · subst ha
      rw [updMap, if_pos rfl]
      simp only [List.map_cons, List.nodup_cons]
      exact h
    · rw [updMap, if_neg ha]
      simp only [List.map_cons, List.nodup_cons]
      refine ⟨fun hmem => ?_, ih h.2⟩
      rcases mem_keys_updMap m k f a hmem with hm | hm
      · exact h.1 hm
      · exact ha hm

theorem lookupA_split {β : Type} (m : List (String × β)) (k : String) (v : β)
    (h : lookupA m k = some v) :
    ∃ pre post, m = pre ++ (k, v) :: post ∧ ∀ e ∈ pre, e.1 ≠ k := by
  induction m with
  | nil => simp [lookupA] at h
  | cons e m ih =>
    obtain ⟨a, w⟩ := e
    by_cases ha : a = k
    · subst ha
      rw [lookupA, if_pos rfl] at h
      obtain rfl : w = v := Option.some.injEq .. ▸ h
      exact ⟨[], m, rfl, by simp⟩
    · rw [lookupA, if_neg ha] at h
      obtain ⟨pre, post, heq, hpre⟩ := ih h
      refine ⟨(a, w) :: pre, post, by rw [heq]; rfl, ?_⟩
      intro f hf
      rcases List.mem_cons.mp hf with hf | hf
      · subst hf
        exact ha
      · exact hpre f hf

theorem split_of_lookupA_nodup {β : Type} (m : List (String × β)) (k : String) (v : β)
    (h : lookupA m k = some v) (hn : (m.map Prod.fst).Nodup) :
    ∃ pre post, m = pre ++ (k, v) :: post ∧ (∀ e ∈ pre, e.1 ≠ k) ∧ ∀ e ∈ post, e.1 ≠ k := by
  obtain ⟨pre, post, heq, hpre⟩ := lookupA_split m k v h
  refine ⟨pre, post, heq, hpre, ?_⟩
  intro e he
  rw [heq] at hn
  simp only [List.map_append, List.map_cons] at hn
  have h2 := hn.of_append_right
  rw [List.nodup_cons] at h2
  intro hek
  exact h2.1 (hek ▸ List.mem_map_of_mem Prod.fst he)

/- Lemmas about the attachment pass. -/

theorem passStep_error (e : AmperError) (a : Attachment) :
    passStep (.error e) a = .error e := rfl

theorem passStep_ok (st : PolicyState) (a : Attachment) :
    passStep (.ok st) a = processAttachment st a := rfl

theorem foldl_passStep_error (l : List Attachment) (e : AmperError) :
    l.foldl passStep (.error e) = .error e := by
  induction l with
  | nil => rfl
  | cons a l ih => rw [List.foldl_cons, passStep_error, ih]

theorem processAttachment_render_error (st : PolicyState) (a : Attachment) (e : AmperError)
    (h : a.pt.renderTemplate a.account a.vars = .error e) :
    processAttachment st a = .error e := by
  unfold processAttachment
  rw [h]

theorem processAttachment_missing (st : PolicyState) (a : Attachment)
    (h : a.pt.renderTemplate a.account a.vars = .ok none) :
    processAttachment st a = .ok
      { st with
        serviceRolePolicies := ensureAt st.serviceRolePolicies a.account.Name
        scopeMap := ensureAt st.scopeMap a.account.Name
        accountPolicies := pushAt st.accountPolicies a.account.Name {}
        missing := st.missing ++ [a] } := by
  unfold processAttachment
  rw [h]

theorem processAttachment_version_error (st : PolicyState) (a : Attachment) (pd : IAMPolicyDoc)
    (h : a.pt.renderTemplate a.account a.vars = .ok (some pd))
    (h1 : pd.Version ≠ "") (h2 : pd.Version ≠ IAMPolicyVersion) :
    processAttachment st a = .error (.unsupportedVersion pd.Version) := by
  unfold processAttachment
  rw [h]
  simp only [if_pos (And.intro h1 h2)]

theorem processAttachment_ok_noRole (st : PolicyState) (a : Attachment) (pd : IAMPolicyDoc)
    (h : a.pt.renderTemplate a.account a.vars = .ok (some pd))
    (hv : ¬(pd.Version ≠ "" ∧ pd.Version ≠ IAMPolicyVersion))
    (hsr : a.pt.ServiceRole = none) :
    processAttachment st a = .ok
      { st with
        accountPolicies := pushAt st.accountPolicies a.account.Name pd
        scopeMap := updMap (ensureAt st.scopeMap a.account.Name) a.account.Name
          (fun o => insertSet (o.getD []) a.pt.Scope)
        serviceRolePolicies := ensureAt st.serviceRolePolicies a.account.Name } := by
  unfold processAttachment
  rw [h]
  simp only [if_neg hv, hsr]

theorem processAttachment_ok_role (st : PolicyState) (a : Attachment) (pd : IAMPolicyDoc)
    (sr : ServiceRole) (rolePolicy assumeRolePolicy : IAMPolicyDoc)
    (h : a.pt.renderTemplate a.account a.vars = .ok (some pd))
    (hv : ¬(pd.Version ≠ "" ∧ pd.Version ≠ IAMPolicyVersion))
    (hsr : a.pt.ServiceRole = some sr)
    (hrp : a.pt.renderServiceRole a.account a.vars = .ok rolePolicy)
    (harp : a.pt.renderServiceAssumeRole a.account a.vars = .ok assumeRolePolicy) :
    processAttachment st a = .ok
      { st with
        accountPolicies := pushAt st.accountPolicies a.account.Name pd
        scopeMap := updMap (ensureAt st.scopeMap a.account.Name) a.account.Name
          (fun o => insertSet (o.getD []) a.pt.Scope)
        serviceRolePolicies :=
          updMap (ensureAt st.serviceRolePolicies a.account.Name) a.account.Name
            (fun o => setAt (o.getD []) sr.Name ⟨rolePolicy, assumeRolePolicy⟩) } := by
  unfold processAttachment
  rw [h]
  simp only [if_neg hv, hsr, hrp, harp]

theorem processAttachment_role_error (st : PolicyState) (a : Attachment) (pd : IAMPolicyDoc)
    (sr : ServiceRole) (e : AmperError)
    (h : a.pt.renderTemplate a.account a.vars = .ok (some pd))
    (hv : ¬(pd.Version ≠ "" ∧ pd.Version ≠ IAMPolicyVersion))
    (hsr : a.pt.ServiceRole = some sr)
    (hrp : a.pt.renderServiceRole a.account a.vars = .error e) :
    processAttachment st a = .error e := by
  unfold processAttachment
  rw [h]
  simp only [if_neg hv, hsr, hrp]

theorem processAttachment_assumeRole_error (st : PolicyState) (a : Attachment)
    (pd : IAMPolicyDoc) (sr : ServiceRole) (rolePolicy : IAMPolicyDoc) (e : AmperError)
    (h : a.pt.renderTemplate a.account a.vars = .ok (some pd))
    (hv : ¬(pd.Version ≠ "" ∧ pd.Version ≠ IAMPolicyVersion))
    (hsr : a.pt.ServiceRole = some sr)
    (hrp : a.pt.renderServiceRole a.account a.vars = .ok rolePolicy)
    (harp : a.pt.renderServiceAssumeRole a.account a.vars = .error e) :
    processAttachment st a = .error e := by
  unfold processAttachment
  rw [h]
  simp only [if_neg hv, hsr, hrp, harp]

theorem processAttachment_ok_scopeMap (st : PolicyState) (a : Attachment) (st' : PolicyState)
    (h : processAttachment st a = .ok st') :
    st'.scopeMap = ensureAt st.scopeMap a.account.Name ∨
    st'.scopeMap = updMap (ensureAt st.scopeMap a.account.Name) a.account.Name
      (fun o => insertSet (o.getD []) a.pt.Scope) := by
  cases hrt : a.pt.renderTemplate a.account a.vars with
  | error e =>
    rw [processAttachment_render_error st a e hrt] at h
    exact Except.noConfusion h
  | ok pd0 =>
    cases pd0 with
    | none =>
      rw [processAttachment_missing st a hrt] at h
      cases h
      exact Or.inl rfl
    | some pd =>
      by_cases hv : pd.Version ≠ "" ∧ pd.Version ≠ IAMPolicyVersion
      · rw [processAttachment_version_error st a pd hrt hv.1 hv.2] at h
        exact Except.noConfusion h
      · cases hsr : a.pt.ServiceRole with
        | none =>
          rw [processAttachment_ok_noRole st a pd hrt hv hsr] at h
          cases h
          exact Or.inr rfl
        | some sr =>
          cases hrp : a.pt.renderServiceRole a.account a.vars with
          | error e =>
            rw [processAttachment_role_error st a pd sr e hrt hv hsr hrp] at h
            exact Except.noConfusion h
          | ok rolePolicy =>
            cases harp : a.pt.renderServiceAssumeRole a.account a.vars with
            | error e =>
              rw [processAttachment_assumeRole_error st a pd sr rolePolicy e hrt hv hsr hrp harp] at h
              exact Except.noConfusion h
            | ok assumeRolePolicy =>
              rw [processAttachment_ok_role st a pd sr rolePolicy assumeRolePolicy hrt hv hsr hrp harp] at h
              cases h
              exact Or.inr rfl

theorem processAttachment_nodup (st : PolicyState) (a : Attachment) (st' : PolicyState)
    (h : processAttachment st a = .ok st')
    (hn : (st.scopeMap.map Prod.fst).Nodup) :
    (st'.scopeMap.map Prod.fst).Nodup := by
  rcases processAttachment_ok_scopeMap st a st' h with h' | h' <;> rw [h']
  · exact nodup_keys_updMap st.scopeMap a.account.Name _ hn
  · exact nodup_keys_updMap _ a.account.Name _
      (nodup_keys_updMap st.scopeMap a.account.Name _ hn)

theorem passFold_nodup (l : List Attachment) (st0 st : PolicyState)
    (h : l.foldl passStep (.ok st0) = .ok st)
    (h0 : (st0.scopeMap.map Prod.fst).Nodup) :
    (st.scopeMap.map Prod.fst).Nodup := by
  induction l generalizing st0 with
  | nil =>
    rw [List.foldl_nil] at h
    cases h
    exact h0
  | cons a l ih =>
    rw [List.foldl_cons, passStep_ok] at h
    cases hpa : processAttachment st0 a with
    | error e =>
      rw [hpa, foldl_passStep_error] at h
      exact Except.noConfusion h
    | ok st1 =>
      rw [hpa] at h
      exact ih st1 h (processAttachment_nodup st0 a st1 hpa h0)

theorem passState_nodup (c : Container) (st : PolicyState) (h : c.passState = .ok st) :
    (st.scopeMap.map Prod.fst).Nodup :=
  passFold_nodup c.attachments {} st h (by simp)

/- Lemmas about the assembly and compression tail of the composer. -/

theorem Policy_passState_error (c : Container) (e : AmperError) (h : c.passState = .error e) :
    c.Policy = ⟨none, some e, []⟩ := by
  unfold Container.Policy
  rw [h]

theorem Policy_compress_some (c : Container) (st : PolicyState) (e : AmperError)
    (h : c.passState = .ok st)
    (hc : c.amper.compress
      ⟨(finalize st.accountPolicies st.scopeMap).1, (finalize st.accountPolicies st.scopeMap).2,
        st.serviceRolePolicies⟩ = some e) :
    c.Policy = ⟨none, some e, st.missing⟩ := by
  unfold Container.Policy
  rw [h]
  simp only [hc]

theorem Policy_compress_none (c : Container) (st : PolicyState)
    (h : c.passState = .ok st)
    (hc : c.amper.compress
      ⟨(finalize st.accountPolicies st.scopeMap).1, (finalize st.accountPolicies st.scopeMap).2,
        st.serviceRolePolicies⟩ = none) :
    c.Policy = ⟨some ⟨(finalize st.accountPolicies st.scopeMap).1,
      (finalize st.accountPolicies st.scopeMap).2, st.serviceRolePolicies⟩, none, st.missing⟩ := by
  unfold Container.Policy
  rw [h]
  simp only [hc]

theorem Policy_policy_some (c : Container) (st : PolicyState) (p : Amper.Policy)
    (hst : c.passState = .ok st) (hp : (c.Policy).policy = some p) :
    p = ⟨(finalize st.accountPolicies st.scopeMap).1, (finalize st.accountPolicies st.scopeMap).2,
      st.serviceRolePolicies⟩ := by
  cases hc : c.amper.compress
      ⟨(finalize st.accountPolicies st.scopeMap).1, (finalize st.accountPolicies st.scopeMap).2,
        st.serviceRolePolicies⟩ with
  | some e =>
    rw [Policy_compress_some c st e hst hc] at hp
    exact Option.noConfusion hp
  | none =>
    rw [Policy_compress_none c st hst hc] at hp
    exact (Option.some.inj hp).symm

theorem Policy_abort (c : Container) (pre post : List Attachment) (a : Attachment)
    (st : PolicyState) (e : AmperError)
    (hatt : c.attachments = pre ++ a :: post)
    (hpre : pre.foldl passStep (.ok {}) = .ok st)
    (hpa : processAttachment st a = .error e) :
    c.Policy = ⟨none, some e, []⟩ := by
  have hps : c.passState = .error e := by
    unfold Container.passState
    rw [hatt, List.foldl_append, hpre, List.foldl_cons, passStep_ok, hpa, foldl_passStep_error]
  exact Policy_passState_error c e hps

/- Lemmas about the per-account synthesis loop. -/

theorem finalizeStep_fst_ne
    (acc : List (String × List IAMPolicyDoc) × List (String × List IAMPolicyDoc))
    (e : String × List String) (k : String) (h : e.1 ≠ k) :
    lookupA (finalizeStep acc e).1 k = lookupA acc.1 k := by
  simp only [finalizeStep]
  by_cases hp : e.2.isEmpty
  · rw [if_pos hp]
    exact lookupA_pushAt_ne _ _ _ _ h
  · rw [if_neg hp, lookupA_pushAt_ne _ _ _ _ h, lookupA_pushAt_ne _ _ _ _ h]

theorem finalizeStep_snd_ne
    (acc : List (String × List IAMPolicyDoc) × List (String × List IAMPolicyDoc))
    (e : String × List String) (k : String) (h : e.1 ≠ k) :
    lookupA (finalizeStep acc e).2 k = lookupA acc.2 k := by
  simp only [finalizeStep]
  exact lookupA_setAt_ne _ _ _ _ h

theorem finalize_foldl_ne (l : List (String × List String))
    (acc : List (String × List IAMPolicyDoc) × List (String × List IAMPolicyDoc)) (k : String)
    (h : ∀ e ∈ l, e.1 ≠ k) :
    lookupA (l.foldl finalizeStep acc).1 k = lookupA acc.1 k ∧
    lookupA (l.foldl finalizeStep acc).2 k = lookupA acc.2 k := by
  induction l generalizing acc with
  | nil => exact ⟨rfl, rfl⟩
  | cons e l ih =>
    rw [List.foldl_cons]
    have he := h e (List.mem_cons_self e l)
    obtain ⟨ih1, ih2⟩ := ih (finalizeStep acc e) (fun f hf => h f (List.mem_cons_of_mem e hf))
    exact ⟨ih1.trans (finalizeStep_fst_ne acc e k he), ih2.trans (finalizeStep_snd_ne acc e k he)⟩

theorem finalizeStep_fst_self
    (acc : List (String × List IAMPolicyDoc) × List (String × List IAMPolicyDoc))
    (k : String) (po : List String) :
    lookupA (finalizeStep acc (k, po)).1 k =
      some ((lookupA acc.1 k).getD [] ++ [denyDoc po] ++
        if po.isEmpty then [] else [allowAllDoc]) := by
  simp only [finalizeStep]
  by_cases hp : po.isEmpty
  · rw [if_pos hp, if_pos hp, lookupA_pushAt_self]
    simp
  · rw [if_neg hp, if_neg hp, lookupA_pushAt_self, lookupA_pushAt_self]
    simp

theorem finalizeStep_snd_self
    (acc : List (String × List IAMPolicyDoc) × List (String × List IAMPolicyDoc))
    (k : String) (po : List String) :
    lookupA (finalizeStep acc (k, po)).2 k =
      some ((lookupA acc.1 k).getD [] ++ [denyDoc po]) := by
  simp only [finalizeStep]
  rw [lookupA_setAt_self, lookupA_pushAt_self]
  simp

theorem finalize_lookup (ap0 : List (String × List IAMPolicyDoc))
    (sm : List (String × List String)) (k : String) (po : List String)
    (hsm : lookupA sm k = some po) (hnd : (sm.map Prod.fst).Nodup) :
    lookupA (finalize ap0 sm).1 k =
      some ((lookupA ap0 k).getD [] ++ [denyDoc po] ++
        if po.isEmpty then [] else [allowAllDoc]) ∧
    lookupA (finalize ap0 sm).2 k = some ((lookupA ap0 k).getD [] ++ [denyDoc po]) := by
  obtain ⟨pre, post, rfl, hpre, hpost⟩ := split_of_lookupA_nodup sm k po hsm hnd
  unfold finalize
  rw [List.foldl_append, List.foldl_cons]
  obtain ⟨hp1, hp2⟩ := finalize_foldl_ne pre (ap0, []) k hpre
  obtain ⟨hq1, hq2⟩ :=
    finalize_foldl_ne post (finalizeStep (pre.foldl finalizeStep (ap0, [])) (k, po)) k hpost
  constructor
  · rw [hq1, finalizeStep_fst_self, hp1]
  · rw [hq2, finalizeStep_snd_self, hp1]

theorem lookupA_append_last {β : Type} (m : List (String × β)) (k : String) (v : β) :
    (lookupA (m ++ [(k, v)]) k).isSome = true := by
  induction m with
  | nil => simp [lookupA]
  | cons e m ih =>
    obtain ⟨a, w⟩ := e
    by_cases h : a = k
    · simp [lookupA, h]
    · simpa [lookupA, h] using ih

/- The claim theorems. -/

/-- Claim C4: during the composer pass, a render that succeeds but yields
no document is not an error: the step succeeds, an empty placeholder
document is appended to the account entry of the account-policies map, the
attachment is appended to the missing list, and the account scope set is
not unioned with the template scope (the bucket is created but its
contents are unchanged). -/
theorem absent_render_placeholder (st : PolicyState) (a : Attachment)
    (h : a.pt.renderTemplate a.account a.vars = .ok none) :
    processAttachment st a = .ok
      { st with
        serviceRolePolicies := ensureAt st.serviceRolePolicies a.account.Name
        scopeMap := ensureAt st.scopeMap a.account.Name
        accountPolicies := pushAt st.accountPolicies a.account.Name {}
        missing := st.missing ++ [a] }
    ∧ lookupA (pushAt st.accountPolicies a.account.Name {}) a.account.Name =
        some ((lookupA st.accountPolicies a.account.Name).getD [] ++ [docEmpty])
    ∧ lookupA (ensureAt st.scopeMap a.account.Name) a.account.Name =
        some ((lookupA st.scopeMap a.account.Name).getD []) :=
  ⟨processAttachment_missing st a h,
   lookupA_pushAt_self st.accountPolicies a.account.Name {},
   lookupA_ensureAt_self st.scopeMap a.account.Name⟩

/-- Witness for C4 at the absent-render fixture. -/
theorem absent_render_placeholder_witness :
    processAttachment {} attAbsent = .ok stAbsent :=
  (absent_render_placeholder {} attAbsent rfl).1

/-- Claim C5: a rendered document whose version field is non-empty and
differs from the supported version constant aborts the whole composition
with an unsupported-version failure naming the value and no aggregate; a
document with an empty version field is accepted. -/
theorem unsupported_version_aborts (c : Container) (pre post : List Attachment)
    (a : Attachment) (st : PolicyState) (pd : IAMPolicyDoc)
    (hatt : c.attachments = pre ++ a :: post)
    (hpre : pre.foldl passStep (.ok {}) = .ok st)
    (hrender : a.pt.renderTemplate a.account a.vars = .ok (some pd))
    (h1 : pd.Version ≠ "") (h2 : pd.Version ≠ IAMPolicyVersion) :
    c.Policy = ⟨none, some (.unsupportedVersion pd.Version), []⟩
    ∧ ∀ (st0 : PolicyState) (b : Attachment) (pd' : IAMPolicyDoc),
        b.pt.renderTemplate b.account b.vars = .ok (some pd') → pd'.Version = "" →
        b.pt.ServiceRole = none →
        ∃ st1, processAttachment st0 b = .ok st1 := by
  constructor
  · exact Policy_abort c pre post a st _ hatt hpre
      (processAttachment_version_error st a pd hrender h1 h2)
  · intro st0 b pd' hr hv hsr
    exact ⟨_, processAttachment_ok_noRole st0 b pd' hr (fun hx => hx.1 hv) hsr⟩

/-- Witness for C5 at the bad-version fixture. -/
theorem unsupported_version_aborts_witness :
    cBadVersion.Policy = ⟨none, some (.unsupportedVersion "v9"), []⟩ :=
  (unsupported_version_aborts cBadVersion [] [] attBadVersion {} { Version := "v9" }
    rfl rfl rfl (by decide) (by decide)).1

/-- Claim C9: the missing list returned by the composer depends on which
failure occurred: any failure of the attachment pass (render failure,
service-role render failure, unsupported version) yields a nil missing
list even when earlier attachments were recorded missing, while a
compression failure yields the accumulated missing list alongside the
error and no aggregate. -/
theorem missing_list_error_paths (c : Container) (pre post : List Attachment)
    (a : Attachment) (st : PolicyState)
    (hatt : c.attachments = pre ++ a :: post)
    (hpre : pre.foldl passStep (.ok {}) = .ok st) :
    (∀ e, a.pt.renderTemplate a.account a.vars = .error e → c.Policy = ⟨none, some e, []⟩)
    ∧ (∀ e, processAttachment st a = .error e → c.Policy = ⟨none, some e, []⟩)
    ∧ (∀ st' e, c.passState = .ok st' →
        c.amper.compress ⟨(finalize st'.accountPolicies st'.scopeMap).1,
          (finalize st'.accountPolicies st'.scopeMap).2, st'.serviceRolePolicies⟩ = some e →
        c.Policy = ⟨none, some e, st'.missing⟩) := by
  refine ⟨fun e he => ?_, fun e he => ?_, fun st' e hok hc => ?_⟩
  · exact Policy_abort c pre post a st e hatt hpre (processAttachment_render_error st a e he)
  · exact Policy_abort c pre post a st e hatt hpre he
  · exact Policy_compress_some c st' e hok hc

/-- Witness for C9: a render failure after a recorded missing attachment
returns a nil missing list, and a compression failure returns the
accumulated missing list. -/
theorem missing_list_error_paths_witness :
    cRenderErr.Policy = ⟨none, some (.renderFailure "boom"), []⟩
    ∧ cCompressErr.Policy = ⟨none, some (.compressFailure "limit"), [attAbsent]⟩ :=
  ⟨(missing_list_error_paths cRenderErr [attAbsent] [] attRenderErr stAbsent rfl rfl).1
      (.renderFailure "boom") rfl,
   (missing_list_error_paths cCompressErr [] [] attAbsent {} rfl rfl).2.2
      stAbsent (.compressFailure "limit") rfl rfl⟩

/-- Claim C10: a container with no attachments produces, when compression
succeeds, an aggregate whose three maps are empty, no error, and an empty
missing list. -/
theorem empty_container_empty_policy (c : Container)
    (hatt : c.attachments = [])
    (hcompress : c.amper.compress ⟨[], [], []⟩ = none) :
    c.Policy = ⟨some ⟨[], [], []⟩, none, []⟩ := by
  have hps : c.passState = .ok {} := by
    unfold Container.passState
    rw [hatt]
    rfl
  exact Policy_compress_none c {} hps hcompress

/-- Witness for C10 at the attachment-free fixture. -/
theorem empty_container_empty_policy_witness :
    cEmptyAtt.Policy = ⟨some ⟨[], [], []⟩, none, []⟩ :=
  empty_container_empty_policy cEmptyAtt rfl rfl

theorem AddAttachment_noTemplate (c : Container) (tid aname : String) (vars : VarMap)
    (h1 : lookupA c.amper.policyTemplates tid = none) :
    c.AddAttachment tid aname vars = ⟨none, some (.unknownTemplate tid c.ID), c⟩ := by
  unfold Container.AddAttachment
  rw [h1]

theorem AddAttachment_noAccount (c : Container) (tid aname : String) (vars : VarMap)
    (pt : PolicyTemplate)
    (h1 : lookupA c.amper.policyTemplates tid = some pt)
    (h2 : lookupA c.amper.accounts aname = none) :
    c.AddAttachment tid aname vars = ⟨none, some (.unknownAccount aname c.ID), c⟩ := by
  unfold Container.AddAttachment
  rw [h1]
  simp only [h2]

theorem AddAttachment_missingVar (c : Container) (tid aname : String) (vars : VarMap)
    (pt : PolicyTemplate) (account : Account) (v : String)
    (h1 : lookupA c.amper.policyTemplates tid = some pt)
    (h2 : lookupA c.amper.accounts aname = some account)
    (h3 : pt.Vars.find? (fun x => (lookupA vars x).isNone) = some v) :
    c.AddAttachment tid aname vars = ⟨none, some (.missingVariable v c.ID), c⟩ := by
  unfold Container.AddAttachment
  rw [h1]
  simp only [h2, h3]

theorem AddAttachment_success (c : Container) (tid aname : String) (vars : VarMap)
    (pt : PolicyTemplate) (account : Account)
    (h1 : lookupA c.amper.policyTemplates tid = some pt)
    (h2 : lookupA c.amper.accounts aname = some account)
    (h3 : pt.Vars.find? (fun x => (lookupA vars x).isNone) = none) :
    c.AddAttachment tid aname vars = ⟨some ⟨pt, account, vars⟩, none,
      { c with attachments := c.attachments ++ [⟨pt, account, vars⟩] }⟩ := by
  unfold Container.AddAttachment
  rw [h1]
  simp only [h2, h3]

/-- Claim C6: AddAttachment requires every required variable name of the
template to be a key of the supplied mapping (extra bindings permitted),
failing with a missing-variable error naming the first offending variable;
on every failure path the attachment list is unchanged, and on success
exactly one attachment is appended and returned. -/
theorem addAttachment_checks_vars_atomic (c : Container) (tid aname : String)
    (vars : VarMap) (r : AddAttachmentResult)
    (hr : c.AddAttachment tid aname vars = r) :
    (r.err.isSome = true → r.container = c ∧ r.attachment = none)
    ∧ (∀ pt, lookupA c.amper.policyTemplates tid = some pt →
        (lookupA c.amper.accounts aname).isSome = true →
        ∀ v, pt.Vars.find? (fun x => (lookupA vars x).isNone) = some v →
        r.err = some (.missingVariable v c.ID))
    ∧ (r.err = none → ∃ att, r.attachment = some att ∧
        r.container.attachments = c.attachments ++ [att] ∧
        ∀ pt, lookupA c.amper.policyTemplates tid = some pt →
          ∀ v ∈ pt.Vars, (lookupA vars v).isSome = true) := by
  subst hr
  cases h1 : lookupA c.amper.policyTemplates tid with
  | none =>
    rw [AddAttachment_noTemplate c tid aname vars h1]
    exact ⟨fun _ => ⟨rfl, rfl⟩, fun pt hpt => Option.noConfusion hpt,
      fun he => Option.noConfusion he⟩
  | some pt =>
    cases h2 : lookupA c.amper.accounts aname with
    | none =>
      rw [AddAttachment_noAccount c tid aname vars pt h1 h2]
      refine ⟨fun _ => ⟨rfl, rfl⟩, fun pt' hpt' hacc => ?_, fun he => Option.noConfusion he⟩
      exact absurd hacc (by simp)
    | some account =>
      cases h3 : pt.Vars.find? (fun x => (lookupA vars x).isNone) with
      | some v =>
        rw [AddAttachment_missingVar c tid aname vars pt account v h1 h2 h3]
        refine ⟨fun _ => ⟨rfl, rfl⟩, fun pt' hpt' hacc v' hv' => ?_,
          fun he => Option.noConfusion he⟩
        obtain rfl : pt = pt' := Option.some.inj hpt'
        rw [h3] at hv'
        obtain rfl : v = v' := Option.some.inj hv'
        rfl
      | none =>
        rw [AddAttachment_success c tid aname vars pt account h1 h2 h3]
        refine ⟨fun hs => absurd hs (by simp), fun pt' hpt' hacc v' hv' => ?_,
          fun _ => ⟨⟨pt, account, vars⟩, rfl, rfl, fun pt' hpt' v hv => ?_⟩⟩
        · obtain rfl : pt = pt' := Option.some.inj hpt'
          rw [h3] at hv'
          exact Option.noConfusion hv'
        · obtain rfl : pt = pt' := Option.some.inj hpt'
          have hne := List.find?_eq_none.mp h3 v hv
          cases ho : lookupA vars v with
          | none => exact absurd (by rw [ho]; rfl) hne
          | some w => rfl

/-- Witness for C6: a mapping missing the second required variable fails
naming it, and a mapping binding both required variables plus an extra one
succeeds, appending exactly one attachment. -/
theorem addAttachment_checks_vars_atomic_witness :
    (cVars.AddAttachment "tvars" "A" [("Bucket", "x")]).err =
      some (.missingVariable "Region" "v1")
    ∧ ∃ att,
        (cVars.AddAttachment "tvars" "A"
          [("Bucket", "x"), ("Region", "r"), ("Extra", "z")]).attachment = some att ∧
        (cVars.AddAttachment "tvars" "A"
          [("Bucket", "x"), ("Region", "r"), ("Extra", "z")]).container.attachments =
          cVars.attachments ++ [att] ∧
        ∀ pt, lookupA cVars.amper.policyTemplates "tvars" = some pt →
          ∀ v ∈ pt.Vars,
            (lookupA [("Bucket", "x"), ("Region", "r"), ("Extra", "z")] v).isSome = true :=
  ⟨(addAttachment_checks_vars_atomic cVars "tvars" "A" [("Bucket", "x")] _ rfl).2.1
      tplVarsReq rfl rfl "Region" rfl,
   (addAttachment_checks_vars_atomic cVars "tvars" "A"
      [("Bucket", "x"), ("Region", "r"), ("Extra", "z")] _ rfl).2.2 rfl⟩

/-- Claim C7: AddPolicyTemplate fails with a duplicate-key error when the
key is registered, fails with an invalid-state error when the template
already carries ownership markers, and otherwise stamps the template and
inserts it; after a successful call a second call with the same key fails
with a duplicate-key error and leaves the state unchanged, and the
template map grows by at most one entry per call. -/
theorem addPolicyTemplate_duplicate_ownership (c : Container) (pt : PolicyTemplate)
    (r : AddTemplateResult) (hr : c.AddPolicyTemplate pt = r) :
    ((lookupA c.amper.policyTemplates pt.Key).isSome = true →
      r = ⟨some (.duplicateTemplate pt.Key), c⟩)
    ∧ (lookupA c.amper.policyTemplates pt.Key = none → (pt.container || pt.amper) = true →
      r = ⟨some (.invalidState pt.Key), c⟩)
    ∧ (lookupA c.amper.policyTemplates pt.Key = none → pt.container = false →
        pt.amper = false →
      r.err = none ∧ r.container.amper.policyTemplates =
        c.amper.policyTemplates ++ [(pt.Key, { pt with amper := true, container := true })])
    ∧ (∀ pt2 : PolicyTemplate, pt2.Key = pt.Key → r.err = none →
      (r.container.AddPolicyTemplate pt2).err = some (.duplicateTemplate pt2.Key) ∧
      (r.container.AddPolicyTemplate pt2).container = r.container)
    ∧ r.container.amper.policyTemplates.length ≤ c.amper.policyTemplates.length + 1 := by
  subst hr
  unfold Container.AddPolicyTemplate
  by_cases h1 : (lookupA c.amper.policyTemplates pt.Key).isSome = true
  · rw [if_pos h1]
    refine ⟨fun _ => rfl, fun hn _ => ?_, fun hn _ _ => ?_,
      fun pt2 _ he => absurd he (by simp), Nat.le_succ _⟩
    · rw [hn] at h1
      exact absurd h1 (by simp)
    · rw [hn] at h1
      exact absurd h1 (by simp)
  · rw [if_neg h1]
    by_cases h2 : (pt.container || pt.amper) = true
    · rw [if_pos h2]
      refine ⟨fun hs => absurd hs h1, fun _ _ => rfl, fun _ hc ha => ?_,
        fun pt2 _ he => absurd he (by simp), Nat.le_succ _⟩
      rw [hc, ha] at h2
      exact absurd h2 (by simp)
    · rw [if_neg h2]
      refine ⟨fun hs => absurd hs h1, fun _ hb => absurd hb h2,
        fun _ _ _ => ⟨rfl, rfl⟩, fun pt2 hk _ => ?_, by simp⟩
      dsimp only
      have hsome : (lookupA (c.amper.policyTemplates ++
          [(pt.Key, { pt with amper := true, container := true })]) pt2.Key).isSome = true := by
        rw [hk]
        exact lookupA_append_last _ _ _
      rw [if_pos hsome]
      exact ⟨rfl, rfl⟩

/-- Witness for C7: registering a fresh template succeeds and registering
it again fails with a duplicate-key error, leaving the state unchanged. -/
theorem addPolicyTemplate_duplicate_ownership_witness :
    (cReg.AddPolicyTemplate tplFresh).err = none
    ∧ ((cReg.AddPolicyTemplate tplFresh).container.AddPolicyTemplate tplFresh).err =
        some (.duplicateTemplate "f1")
    ∧ ((cReg.AddPolicyTemplate tplFresh).container.AddPolicyTemplate tplFresh).container =
        (cReg.AddPolicyTemplate tplFresh).container := by
  have h := addPolicyTemplate_duplicate_ownership cReg tplFresh _ rfl
  have hsucc := h.2.2.1 rfl rfl rfl
  have hdup := h.2.2.2.1 tplFresh rfl hsucc.1
  exact ⟨hsucc.1, hdup.1, hdup.2⟩

/-- Claim C8: for an attachment whose template declares a service role,
both the role policy and the assume-role policy are rendered and stored in
the account service-role bucket under the role name, replacing whatever
pair an earlier attachment stored there (the result does not depend on the
previous bucket contents); a failure of either render aborts the entire
composition. -/
theorem serviceRole_render_and_overwrite (c : Container) (pre post : List Attachment)
    (a : Attachment) (st : PolicyState) (pd : IAMPolicyDoc) (sr : ServiceRole)
    (hatt : c.attachments = pre ++ a :: post)
    (hpre : pre.foldl passStep (.ok {}) = .ok st)
    (hrender : a.pt.renderTemplate a.account a.vars = .ok (some pd))
    (hv : ¬(pd.Version ≠ "" ∧ pd.Version ≠ IAMPolicyVersion))
    (hsr : a.pt.ServiceRole = some sr) :
    (∀ rolePolicy assumeRolePolicy,
        a.pt.renderServiceRole a.account a.vars = .ok rolePolicy →
        a.pt.renderServiceAssumeRole a.account a.vars = .ok assumeRolePolicy →
        ∃ st', processAttachment st a = .ok st' ∧
          lookupA ((lookupA st'.serviceRolePolicies a.account.Name).getD []) sr.Name =
            some ⟨rolePolicy, assumeRolePolicy⟩)
    ∧ (∀ e, a.pt.renderServiceRole a.account a.vars = .error e →
        c.Policy = ⟨none, some e, []⟩)
    ∧ (∀ rolePolicy e, a.pt.renderServiceRole a.account a.vars = .ok rolePolicy →
        a.pt.renderServiceAssumeRole a.account a.vars = .error e →
        c.Policy = ⟨none, some e, []⟩) := by
  refine ⟨fun rp arp hrp harp => ?_, fun e he => ?_, fun rp e hrp he => ?_⟩
  · refine ⟨_, processAttachment_ok_role st a pd sr rp arp hrender hv hsr hrp harp, ?_⟩
    dsimp only
    rw [lookupA_updMap_self]
    rw [Option.getD_some, lookupA_setAt_self]
  · exact Policy_abort c pre post a st e hatt hpre
      (processAttachment_role_error st a pd sr e hrender hv hsr he)
  · exact Policy_abort c pre post a st e hatt hpre
      (processAttachment_assumeRole_error st a pd sr rp e hrender hv hsr hrp he)

/-- Witness for C8: a service-role attachment stores the rendered pair
under the role name, and a failing service-role render aborts with the
render error. -/
theorem serviceRole_render_and_overwrite_witness :
    (∃ st', processAttachment {} attRole = .ok st' ∧
        lookupA ((lookupA st'.serviceRolePolicies "A").getD []) "sr1" =
          some ⟨rolePolicyDoc, assumeRoleDoc⟩)
    ∧ cRoleBad.Policy = ⟨none, some (.renderFailure "role"), []⟩ :=
  ⟨(serviceRole_render_and_overwrite cRole [] [] attRole {} {} ⟨"sr1"⟩
      rfl rfl rfl (by decide) rfl).1 rolePolicyDoc assumeRoleDoc rfl rfl,
   (serviceRole_render_and_overwrite cRoleBad [] [] attRoleBad {} {} ⟨"sr1"⟩
      rfl rfl rfl (by decide) rfl).2.1 (.renderFailure "role") rfl⟩

/-- Claim C1: for an account of the composer output whose scope set is
non-empty, the account-policies list is exactly the role-policies list
followed by one allow-everything document, and the role-policies list does
not contain the allow-everything document (granted none of the rendered
documents equals it). -/
theorem rolePolicies_trailing_allowAll (c : Container) (st : PolicyState) (p : Amper.Policy)
    (account : String) (po : List String)
    (hst : c.passState = .ok st)
    (hp : (c.Policy).policy = some p)
    (hsc : lookupA st.scopeMap account = some po)
    (hpo : po ≠ [])
    (hclean : allowAllDoc ∉ (lookupA st.accountPolicies account).getD []) :
    lookupA p.AccountPolicies account =
      some ((lookupA p.AccountRolePolicies account).getD [] ++ [allowAllDoc])
    ∧ allowAllDoc ∉ (lookupA p.AccountRolePolicies account).getD [] := by
  obtain rfl := Policy_policy_some c st p hst hp
  have hnd := passState_nodup c st hst
  obtain ⟨hap, harp⟩ := finalize_lookup st.accountPolicies st.scopeMap account po hsc hnd
  have hempty : po.isEmpty = false := by
    cases po with
    | nil => exact absurd rfl hpo
    | cons x xs => rfl
  rw [hempty, if_neg (show ¬(false = true) by simp)] at hap
  constructor
  · dsimp only
    rw [hap, harp]
    rfl
  · dsimp only
    rw [harp]
    simp only [Option.getD_some]
    intro hmem
    rcases List.mem_append.mp hmem with hm | hm
    · exact hclean hm
    · have heq : allowAllDoc = denyDoc po := by simpa using hm
      unfold denyDoc at heq
      rw [hempty, if_neg (show ¬(false = true) by simp)] at heq
      simp [allowAllDoc, allowAll, denyUnknownServices] at heq

/-- Witness for C1 at the scoped fixture container. -/
theorem rolePolicies_trailing_allowAll_witness :
    lookupA pScoped.AccountPolicies "A" =
      some ((lookupA pScoped.AccountRolePolicies "A").getD [] ++ [allowAllDoc])
    ∧ allowAllDoc ∉ (lookupA pScoped.AccountRolePolicies "A").getD [] :=
  rolePolicies_trailing_allowAll cScoped stScoped pScoped "A" ["s3:*"]
    rfl rfl rfl (by decide) (by decide)

/-- Claim C2: for an account whose scope set is non-empty, the synthesized
deny statement has effect Deny, a resource wildcard, and a negated-action
list equal to the scope set members sorted lexicographically; the sort is
invariant under permutation of the collected scope set, so the emitted
ordering does not depend on map iteration order and is identical across
invocations. -/
theorem deny_statement_sorted_scope (c : Container) (st : PolicyState) (p : Amper.Policy)
    (account : String) (po : List String)
    (hst : c.passState = .ok st)
    (hp : (c.Policy).policy = some p)
    (hsc : lookupA st.scopeMap account = some po)
    (hpo : po ≠ []) :
    lookupA p.AccountPolicies account =
      some ((lookupA st.accountPolicies account).getD [] ++
        [{ Statements := [denyUnknownServices (sortStrings po)] }, allowAllDoc])
    ∧ (denyUnknownServices (sortStrings po)).Effect = "Deny"
    ∧ (denyUnknownServices (sortStrings po)).Resources = ["*"]
    ∧ (denyUnknownServices (sortStrings po)).NotActions = sortStrings po
    ∧ List.Sorted (fun a b => a ≤ b) (sortStrings po)
    ∧ List.Perm (sortStrings po) po
    ∧ ∀ l1 l2 : List String, List.Perm l1 l2 → sortStrings l1 = sortStrings l2 := by
  obtain rfl := Policy_policy_some c st p hst hp
  have hnd := passState_nodup c st hst
  obtain ⟨hap, _⟩ := finalize_lookup st.accountPolicies st.scopeMap account po hsc hnd
  have hempty : po.isEmpty = false := by
    cases po with
    | nil => exact absurd rfl hpo
    | cons x xs => rfl
  have hdd : denyDoc po = { Statements := [denyUnknownServices (sortStrings po)] } := by
    unfold denyDoc
    rw [hempty, if_neg (show ¬(false = true) by simp)]
  rw [hempty, if_neg (show ¬(false = true) by simp), hdd] at hap
  refine ⟨?_, rfl, rfl, rfl, ?_, ?_, ?_⟩
  · dsimp only
    rw [hap, List.append_assoc]
    rfl
  · exact List.sorted_insertionSort _ po
  · exact List.perm_insertionSort _ po
  · intro l1 l2 hperm
    exact List.eq_of_perm_of_sorted
      (((List.perm_insertionSort _ l1).trans hperm).trans
        (List.perm_insertionSort _ l2).symm)
      (List.sorted_insertionSort _ l1) (List.sorted_insertionSort _ l2)

/-- Witness for C2 at the scoped fixture container, with a permutation
instance of the sort invariance. -/
theorem deny_statement_sorted_scope_witness :
    lookupA pScoped.AccountPolicies "A" =
      some [docEmpty, { Statements := [denyUnknownServices ["s3:*"]] }, allowAllDoc]
    ∧ sortStrings ["ec2:*", "s3:*"] = sortStrings ["s3:*", "ec2:*"] := by
  have h := deny_statement_sorted_scope cScoped stScoped pScoped "A" ["s3:*"]
    rfl rfl rfl (by decide)
  exact ⟨by rw [h.1]; rfl, h.2.2.2.2.2.2 _ _ (List.Perm.swap "s3:*" "ec2:*" [])⟩

/-- Claim C3: an account touched by at least one attachment whose scope
set ends up empty gets a single synthesized deny-everything statement
(effect Deny, action wildcard, resource wildcard) at the end of its
account-policies list, and that list contains no allow-everything document
(granted none of the rendered documents equals it). -/
theorem empty_scope_denyAll (c : Container) (st : PolicyState) (p : Amper.Policy)
    (account : String)
    (hst : c.passState = .ok st)
    (hp : (c.Policy).policy = some p)
    (hsc : lookupA st.scopeMap account = some [])
    (hclean : allowAllDoc ∉ (lookupA st.accountPolicies account).getD []) :
    lookupA p.AccountPolicies account =
      some ((lookupA st.accountPolicies account).getD [] ++
        [{ Statements := [denyAllStatement] }])
    ∧ denyAllStatement.Effect = "Deny"
    ∧ denyAllStatement.Actions = ["*"]
    ∧ denyAllStatement.Resources = ["*"]
    ∧ allowAllDoc ∉ (lookupA p.AccountPolicies account).getD [] := by
  obtain rfl := Policy_policy_some c st p hst hp
  have hnd := passState_nodup c st hst
  obtain ⟨hap, _⟩ := finalize_lookup st.accountPolicies st.scopeMap account [] hsc hnd
  have hap' : lookupA (finalize st.accountPolicies st.scopeMap).1 account =
      some ((lookupA st.accountPolicies account).getD [] ++
        [{ Statements := [denyAllStatement] }]) := by
    rw [hap]
    simp [denyDoc]
  refine ⟨by dsimp only; exact hap', rfl, rfl, rfl, ?_⟩
  dsimp only
  rw [hap']
  simp only [Option.getD_some]
  intro hmem
  rcases List.mem_append.mp hmem with hm | hm
  · exact hclean hm
  · have heq : allowAllDoc = { Statements := [denyAllStatement] } := by simpa using hm
    simp [allowAllDoc, allowAll, denyAllStatement] at heq

/-- Witness for C3 at the scope-less fixture container. -/
theorem empty_scope_denyAll_witness :
    lookupA pNoScope.AccountPolicies "B" =
      some [docEmpty, { Statements := [denyAllStatement] }]
    ∧ allowAllDoc ∉ (lookupA pNoScope.AccountPolicies "B").getD [] := by
  have h := empty_scope_denyAll cNoScope stNoScope pNoScope "B" rfl rfl rfl (by decide)
  exact ⟨by rw [h.1]; rfl, h.2.2.2.2⟩

end Amper
